import Mathlib

/-!
Shallow embedding of `azan_google_home.py` (the GoogleHome-Azan-Player daemon).

Modelling conventions:

* Instants are integers counting seconds.  A calendar date is represented by the
  instant of its midnight (`dayStart`); advancing the date by one day adds 86400.
  `datetime.datetime(y, m, d, hh, mm)` becomes `dayStart + hh * 3600 + mm * 60`,
  and the constructor's range check on hours and minutes is made explicit in
  `mkDatetime` (out-of-range values raise `ValueError` in Python).
* Python exceptions are modelled with `Option` / explicit error components of
  type `PyError`.  A function whose exceptions the caller does not catch reports
  the escaping exception in its result; in the day loop an escaping exception
  terminates the process (`CycleResult.crash`).
* `datetime.datetime.now()` is sampled once per scheduling pass (`nowBuild`) and
  once per iteration of the inner polling loop (the `polls` list); the source
  samples it per prayer inside `schedule_daily_prayers`, but every claim is
  stated relative to a single build-time "now".
* The `schedule` library is modelled by a list of pending jobs (`Event`), each
  carrying the absolute instant of its next run.  `schedule.every().day.at(t)`
  with `t` a same-day future instant sets the job's next run to exactly that
  instant, and a fired daily job has its next run advanced by one day.
* Strings are processed as their underlying character lists; `int(...)` is
  modelled by `pyInt`, including Python's tolerance for surrounding whitespace,
  a single sign, and single underscores between digits.
-/

namespace AzanSched

/-- Error values standing for the Python exceptions that matter here:
a `requests` network exception, a JSON decoding exception from `resp.json()`,
a `KeyError` from dictionary indexing, and a `ValueError` (raised by `int()`,
by tuple unpacking in `parse_time`, and by the `datetime` constructor). -/
inductive PyError
  | requestsError
  | jsonDecodeError
  | keyError
  | valueError
deriving DecidableEq, Repr

/-- Python `str.strip()` on a character list (ASCII whitespace model). -/
def pyStrip (l : List Char) : List Char :=
  ((l.dropWhile Char.isWhitespace).reverse.dropWhile Char.isWhitespace).reverse

/-- Python `str.split(sep)` for a single-character separator: splits at every
occurrence, keeping empty pieces, and yields one piece even for the empty
string. -/
def splitOnChar (sep : Char) : List Char → List (List Char)
  | [] => [[]]
  | c :: rest =>
    let r := splitOnChar sep rest
    if c = sep then [] :: r
    else
      match r with
      | [] => [[c]]
      | g :: gs => (c :: g) :: gs

/-- Digit-run scanner for `pyInt`: Python's `int()` accepts digits with single
underscores strictly between digits. -/
def pyDigitsGo (acc : Nat) : List Char → Option Nat
  | [] => some acc
  | c :: rest =>
    if c.isDigit then pyDigitsGo (acc * 10 + (c.toNat - 48)) rest
    else if c = '_' then
      match rest with
      | [] => none
      | c2 :: rest2 =>
        if c2.isDigit then pyDigitsGo (acc * 10 + (c2.toNat - 48)) rest2 else none
    else none

/-- Nonempty digit run (first character must be a digit). -/
def pyDigits : List Char → Option Nat
  | [] => none
  | c :: rest => if c.isDigit then pyDigitsGo (c.toNat - 48) rest else none

/-- Sign handling of Python `int(s)` after the whitespace strip: one optional
sign and then a digit run. -/
def pyIntCore : List Char → Option Int
  | [] => none
  | c :: rest =>
    if c = '-' then (pyDigits rest).map (fun n => -(n : Int))
    else if c = '+' then (pyDigits rest).map (fun n => (n : Int))
    else (pyDigits (c :: rest)).map (fun n => (n : Int))

/-- Python `int(s)`: strip surrounding whitespace, allow one optional sign,
then a digit run; `none` models the `ValueError` raised otherwise. -/
def pyInt (l : List Char) : Option Int :=
  pyIntCore (pyStrip l)

/-- The source's `t_str.split('(')[0].strip()`: keep everything before the
first parenthesis, then trim whitespace. -/
def stripAnnot (s : String) : List Char :=
  pyStrip (s.data.takeWhile (fun c => c != '('))

/-- Source `parse_time` (azan_google_home.py lines 137-141):
strip the parenthesised suffix, split on every colon, require exactly two
pieces, convert both with `int`.  `none` models the escaping `ValueError`
(the spec's `FormatError`). -/
def parse_time (s : String) : Option (Int × Int) :=
  match splitOnChar ':' (stripAnnot s) with
  | [a, b] =>
    match pyInt a, pyInt b with
    | some x, some y => some (x, y)
    | _, _ => none
  | _ => none

/-- Python `datetime.datetime(y, m, d, hh, mm)` relative to the date's midnight
instant: validates the hour and minute ranges (`ValueError` otherwise). -/
def mkDatetime (dayStart hh mm : Int) : Option Int :=
  if 0 ≤ hh ∧ hh ≤ 23 ∧ 0 ≤ mm ∧ mm ≤ 59 then
    some (dayStart + hh * 3600 + mm * 60)
  else none

/-- Composition used throughout the scheduler: parse a prayer-time string and
build its instant on the given date. -/
def prayerInstant (dayStart : Int) (t : String) : Option Int :=
  match parse_time t with
  | none => none
  | some (hh, mm) => mkDatetime dayStart hh mm

/-- Kind of a scheduled job: a full Azan playback (`play_azan`) or the
log-only ten-minute reminder closure. -/
inductive EventKind
  | primaryAlert
  | reminder
deriving DecidableEq, Repr

/-- One pending `schedule` job: its kind, the prayer name it was created for
(`TEST` for the daily test job), and the absolute instant of its next run. -/
structure Event where
  kind : EventKind
  tag : String
  fire : Int
deriving DecidableEq, Repr

/-- Source `schedule_daily_prayers` (lines 169-194).  For each prayer in dict
order: parse its time string (uncaught `ValueError` on failure), build the
prayer instant (uncaught `ValueError` when out of range), and when the instant
minus one minute is still strictly in the future schedule the primary alert
there, plus the ten-minute reminder when that instant is also still future.
Returns the jobs added before any escaping exception, and the exception. -/
def schedule_daily_prayers (dayStart now : Int) :
    List (String × String) → List Event × Option PyError
  | [] => ([], none)
  | (prayer, tstr) :: rest =>
    match parse_time tstr with
    | none => ([], some PyError.valueError)
    | some (hh, mm) =>
      match mkDatetime dayStart hh mm with
      | none => ([], some PyError.valueError)
      | some dtPrayer =>
        let here :=
          if dtPrayer - 60 > now then
            if dtPrayer - 600 > now then
              [Event.mk EventKind.primaryAlert prayer (dtPrayer - 60),
               Event.mk EventKind.reminder prayer (dtPrayer - 600)]
            else
              [Event.mk EventKind.primaryAlert prayer (dtPrayer - 60)]
          else []
        let r := schedule_daily_prayers dayStart now rest
        (here ++ r.1, r.2)

/-- Source `schedule_test_time` (lines 146-164).  An empty string is skipped;
a string `parse_time` rejects is caught and skipped (the only guarded parse in
the program); a parsed but out-of-range time raises `ValueError` from the
`datetime` constructor, which is outside the `try` block and escapes; a future
test instant yields one extra primary-alert job at exactly that instant. -/
def schedule_test_time (dayStart : Int) (testTimeStr : String) (now : Int) :
    List Event × Option PyError :=
  if testTimeStr = "" then ([], none)
  else
    match parse_time testTimeStr with
    | none => ([], none)
    | some (hh, mm) =>
      match mkDatetime dayStart hh mm with
      | none => ([], some PyError.valueError)
      | some dtTest =>
        if dtTest > now then ([Event.mk EventKind.primaryAlert ("TEST") dtTest], none)
        else ([], none)

/-! Configuration constants fixed at the top of the source file. -/

/-- Source `AZAN_URL`. -/
def AZAN_URL : String := "https://www.islamcan.com/audio/adhan/azan1.mp3"

/-- Source `AZAN_VOLUME` (full scale, as an exact rational). -/
def AZAN_VOLUME : ℚ := 1

/-- Source `TEST_TIME` (empty: no daily test azan configured). -/
def TEST_TIME : String := ""

/-! The Alert Executor (`play_azan`, lines 94-132). -/

/-- One device call or delay issued by `play_azan`, in order of attempt. -/
inductive DevAction
  | setVolume (v : ℚ)
  | playMedia (url : String) (mime : String)
  | playCmd
  | sleepSecs (n : Nat)
deriving DecidableEq, Repr

/-- Source `play_azan`: the trace of device calls and delays it attempts.
`found` is whether step 1 (device resolution) succeeded, `snapshotOk` whether
reading `cast.status.volume_level` succeeded (a failure there is caught only by
the outermost handler, aborting the rest), and `originalVolume` the snapshot
read in step 2.  The three failure flags model exceptions raised by the
volume-raise call, by `mc.play_media`, and by `mc.play`; each is caught by its
own `try` block, so the sequence continues.  Only a `play_media` exception
suppresses the settle delay and the explicit `play()` of the same `try` block.
The final entry is the restore call with the snapshot value; an exception
there is likewise caught (the attempt itself is what the trace records). -/
def play_azan (found snapshotOk : Bool) (originalVolume : ℚ)
    (setVolFails playMediaFails playCmdFails restoreFails : Bool) : List DevAction :=
  if found = false then []
  else if snapshotOk = false then []
  else
    [DevAction.setVolume AZAN_VOLUME]
    ++ [DevAction.playMedia AZAN_URL ("audio/mp3")]
    ++ (if playMediaFails then [] else [DevAction.sleepSecs 2, DevAction.playCmd])
    ++ [DevAction.sleepSecs 180]
    ++ [DevAction.setVolume originalVolume]

/-! The Daily Time Provider boundary (`get_prayer_times_for_date`, lines 49-72). -/

/-- Shape of the HTTP response body as far as the source inspects it:
`invalidJson` models a body on which `resp.json()` raises; otherwise the flags
record whether the top-level object has a `data` key and whether `data` has a
`timings` key, and `timings` is the name-to-string mapping found there. -/
inductive ApiBody
  | invalidJson
  | json (hasData hasTimings : Bool) (timings : List (String × String))
deriving DecidableEq, Repr

/-- Outcome of the `requests.get` call: either the call itself raises
(connection error, timeout, ...) or an HTTP response arrives. -/
inductive FetchOutcome
  | raiseNet
  | response (status : Int) (body : ApiBody)
deriving DecidableEq, Repr

/-- Python dictionary indexing `t[k]`: `KeyError` when absent. -/
def dictGet (d : List (String × String)) (k : String) : Except PyError String :=
  match d.lookup k with
  | some v => Except.ok v
  | none => Except.error PyError.keyError

/-- Source `get_prayer_times_for_date`: on a 200 response whose JSON contains
`data` and `data.timings`, extract the five prayer keys in source order
(`KeyError` escapes if one is missing); any other response falls through to
`return None`.  An exception from `requests.get` or from `resp.json()`
escapes uncaught. -/
def get_prayer_times_for_date (r : FetchOutcome) :
    Except PyError (Option (List (String × String))) :=
  match r with
  | FetchOutcome.raiseNet => Except.error PyError.requestsError
  | FetchOutcome.response status body =>
    if status = 200 then
      match body with
      | ApiBody.invalidJson => Except.error PyError.jsonDecodeError
      | ApiBody.json hasData hasTimings t =>
        if hasData && hasTimings then do
          let f ← dictGet t ("Fajr")
          let dh ← dictGet t ("Dhuhr")
          let a ← dictGet t ("Asr")
          let mg ← dictGet t ("Maghrib")
          let ish ← dictGet t ("Isha")
          return some [("Fajr", f), ("Dhuhr", dh), ("Asr", a), ("Maghrib", mg), ("Isha", ish)]
        else Except.ok none
    else Except.ok none

/-! The inner polling loop and the day loop (`main_loop`, lines 199-226). -/

/-- One `schedule.run_pending()` call at instant `now`: the jobs whose next
run is due fire, and each fired daily job has its next run moved one day
later.  Returns the fired jobs and the updated job list. -/
def run_pending (now : Int) (jobs : List Event) : List Event × List Event :=
  (jobs.filter (fun j => decide (j.fire ≤ now)),
   jobs.map (fun j => if j.fire ≤ now then Event.mk j.kind j.tag (j.fire + 86400) else j))

/-- Result of observing the inner `while True` loop over a finite list of
sampled `now` instants: the jobs fired, the job list at the end of the
observation, and whether the loop took its `break` (a sample exceeded the
Isha instant). -/
structure InnerOut where
  fired : List Event
  jobs : List Event
  exited : Bool
deriving DecidableEq, Repr

/-- The inner polling loop (lines 218-224): at each sampled instant, first
test `now > dt_isha` and break if so; otherwise `schedule.run_pending()` and
sleep.  `exited = false` means the observed samples ran out with the loop
still polling. -/
def inner_loop (dtIsha : Int) : List Event → List Int → InnerOut
  | jobs, [] => InnerOut.mk [] jobs false
  | jobs, now :: rest =>
    if now > dtIsha then InnerOut.mk [] jobs true
    else
      let p := run_pending now jobs
      let r := inner_loop dtIsha p.2 rest
      InnerOut.mk (p.1 ++ r.fired) r.jobs r.exited

/-- State surviving across iterations of the outer `while True`: the date
cursor `current_day` (as its midnight instant) and the `schedule` module's
pending-job list. -/
structure LoopState where
  current_day : Int
  pending : List Event
deriving DecidableEq, Repr

/-- Environment of one outer-loop iteration: the fetch outcome for the current
date, the build-time `datetime.now()` sample, the sampled instants observed by
the inner polling loop, and the configured `TEST_TIME` string. -/
structure CycleEnv where
  fetch : FetchOutcome
  nowBuild : Int
  polls : List Int
  testTime : String
deriving DecidableEq, Repr

/-- Result of one outer-loop iteration.  `crash` is an exception escaping
`main_loop` (process termination); `retry` is the failed-fetch branch, which
logs, sleeps for the recorded backoff (3600 seconds in the source) and
re-enters the loop with the date unchanged; `running` means the observed poll
samples ended with the inner loop still going; `advanced` means Isha passed,
so the date cursor moved one day ahead. -/
inductive CycleResult
  | crash (e : PyError)
  | retry (st : LoopState) (backoffSecs : Int)
  | running (st : LoopState) (evs fired : List Event) (dtIsha : Int)
  | advanced (st : LoopState) (evs fired : List Event) (dtIsha : Int)
deriving DecidableEq, Repr

/-- Jobs registered with the `schedule` module during one scheduling pass:
the daily prayer jobs followed by the optional test job. -/
def dayJobs (st : LoopState) (env : CycleEnv) (pt : List (String × String)) : List Event :=
  (schedule_daily_prayers st.current_day env.nowBuild pt).1 ++
    (schedule_test_time st.current_day env.testTime env.nowBuild).1

/-- Body of one outer-loop iteration after a successful fetch: schedule the
daily prayers (an escaping exception crashes), schedule the test time, parse
the Isha entry and build its instant (escaping exceptions crash), then run the
inner polling loop until Isha passes, and finally advance the date cursor. -/
def run_day (st : LoopState) (env : CycleEnv) (pt : List (String × String)) : CycleResult :=
  match (schedule_daily_prayers st.current_day env.nowBuild pt).2 with
  | some e => CycleResult.crash e
  | none =>
    match (schedule_test_time st.current_day env.testTime env.nowBuild).2 with
    | some e => CycleResult.crash e
    | none =>
      match pt.lookup ("Isha") with
      | none => CycleResult.crash PyError.keyError
      | some tIsha =>
        match parse_time tIsha with
        | none => CycleResult.crash PyError.valueError
        | some (hh, mm) =>
          match mkDatetime st.current_day hh mm with
          | none => CycleResult.crash PyError.valueError
          | some dtIsha =>
            if (inner_loop dtIsha (dayJobs st env pt) env.polls).exited then
              CycleResult.advanced
                (LoopState.mk (st.current_day + 86400)
                  (inner_loop dtIsha (dayJobs st env pt) env.polls).jobs)
                (dayJobs st env pt)
                (inner_loop dtIsha (dayJobs st env pt) env.polls).fired dtIsha
            else
              CycleResult.running
                (LoopState.mk st.current_day
                  (inner_loop dtIsha (dayJobs st env pt) env.polls).jobs)
                (dayJobs st env pt)
                (inner_loop dtIsha (dayJobs st env pt) env.polls).fired dtIsha

/-- One iteration of the outer `while True` of `main_loop`:
`schedule.clear()` first (the previous day's pending jobs are discarded, so
the iteration never reads `st.pending`), then the fetch for the current date;
a `None` result takes the one-hour-backoff retry branch, a fetch exception
escapes, and a successful fetch runs the day. -/
def main_cycle (st : LoopState) (env : CycleEnv) : CycleResult :=
  match get_prayer_times_for_date env.fetch with
  | Except.error e => CycleResult.crash e
  | Except.ok none => CycleResult.retry (LoopState.mk st.current_day []) 3600
  | Except.ok (some pt) => run_day (LoopState.mk st.current_day []) env pt

/-- The outer loop observed over a finite list of per-iteration environments:
each iteration's starting state and result, stopping at a crash (process
gone) or when the observation of a still-running inner loop ends. -/
def main_run : LoopState → List CycleEnv → List (LoopState × CycleResult)
  | _, [] => []
  | st, env :: rest =>
    let r := main_cycle st env
    (st, r) ::
      match r with
      | CycleResult.crash _ => []
      | CycleResult.retry st2 _ => main_run st2 rest
      | CycleResult.running _ _ _ _ => []
      | CycleResult.advanced st2 _ _ _ => main_run st2 rest

/-! Helper definitions used in stating and settling the claims. -/

/-- Value of a decimal digit list (most significant first). -/
def digitsVal (l : List Char) : Nat :=
  l.foldl (fun a c => a * 10 + (c.toNat - 48)) 0

/-- Boolean test: a nonempty list of decimal digits. -/
def isDigitsB (l : List Char) : Bool :=
  !l.isEmpty && l.all Char.isDigit

/-- Claim-side predicate (spec section 8): the annotation-stripped,
whitespace-trimmed text splits into exactly two integer-parsable parts. -/
def specTwoParts (s : String) : Prop :=
  ∃ x y a b, splitOnChar ':' (stripAnnot s) = [x, y] ∧ pyInt x = some a ∧ pyInt y = some b

/-- A prayer entry given by name plus digit lists for its hour and minute. -/
abbrev PrayerEntry := String × List Char × List Char

/-- Rendered `H:MM` or `HH:MM` string from two digit lists. -/
def renderTime (d1 d2 : List Char) : String :=
  String.mk (d1 ++ ':' :: d2)

/-- Rendered dictionary entry for a prayer entry. -/
def renderEntry (e : PrayerEntry) : String × String :=
  (e.1, renderTime e.2.1 e.2.2)

/-- Instant on the given date named by a prayer entry. -/
def entryInstant (dayStart : Int) (e : PrayerEntry) : Int :=
  dayStart + (digitsVal e.2.1 : Int) * 3600 + (digitsVal e.2.2 : Int) * 60

/-- Events predicted for one prayer entry: the primary alert one minute early
when that fire instant is still future, together with the ten-minute reminder
when that one is, and nothing at all otherwise. -/
def expectedEvents (dayStart now : Int) (e : PrayerEntry) : List Event :=
  if entryInstant dayStart e - 60 > now then
    if entryInstant dayStart e - 600 > now then
      [Event.mk EventKind.primaryAlert e.1 (entryInstant dayStart e - 60),
       Event.mk EventKind.reminder e.1 (entryInstant dayStart e - 600)]
    else [Event.mk EventKind.primaryAlert e.1 (entryInstant dayStart e - 60)]
  else []

/-- Well-formed prayer entry: digit hour below 24 and digit minute below 60
(so the `datetime` constructor accepts it). -/
def validEntry (e : PrayerEntry) : Bool :=
  isDigitsB e.2.1 && isDigitsB e.2.2 &&
    decide (digitsVal e.2.1 < 24) && decide (digitsVal e.2.2 < 60)

/-- Boolean check: the prayer-time string parses, its instant on the given
date is valid, and that instant is at most `bound`. -/
def instantLE (dayStart : Int) (t : String) (bound : Int) : Bool :=
  match prayerInstant dayStart t with
  | some dt => decide (dt ≤ bound)
  | none => false

/-! Lemmas about the parsing pipeline. -/

theorem digit_ne {c d : Char} (h : c.isDigit = true) (hd : d.isDigit = false) : c ≠ d := by
  intro he
  rw [he, hd] at h
  exact Bool.noConfusion h

theorem digit_not_ws {c : Char} (h : c.isDigit = true) : c.isWhitespace = false := by
  have h1 : c ≠ ' ' := digit_ne h (by decide)
  have h2 : c ≠ '\t' := digit_ne h (by decide)
  have h3 : c ≠ '\r' := digit_ne h (by decide)
  have h4 : c ≠ '\n' := digit_ne h (by decide)
  simp [Char.isWhitespace, h1, h2, h3, h4]

theorem takeWhile_append_all {p : Char → Bool} {a : List Char} (b : List Char)
    (h : ∀ c ∈ a, p c = true) : (a ++ b).takeWhile p = a ++ b.takeWhile p := by
  induction a with
  | nil => simp
  | cons x xs ih =>
    have hx : p x = true := h x (by simp)
    simp [List.takeWhile_cons_of_pos hx, ih (fun c hc => h c (by simp [hc]))]

theorem dropWhile_append_all {p : Char → Bool} {a : List Char} (b : List Char)
    (h : ∀ c ∈ a, p c = true) : (a ++ b).dropWhile p = b.dropWhile p := by
  induction a with
  | nil => simp
  | cons x xs ih =>
    have hx : p x = true := h x (by simp)
    simp [List.dropWhile_cons_of_pos hx, ih (fun c hc => h c (by simp [hc]))]

theorem dropWhile_eq_self_of_all_not {p : Char → Bool} {l : List Char}
    (h : ∀ c ∈ l, p c = false) : l.dropWhile p = l := by
  cases l with
  | nil => rfl
  | cons x xs => exact List.dropWhile_cons_of_neg (by simp [h x (by simp)])

theorem dropWhile_all {p : Char → Bool} {l : List Char}
    (h : ∀ c ∈ l, p c = true) : l.dropWhile p = [] := by
  induction l with
  | nil => rfl
  | cons x xs ih =>
    rw [List.dropWhile_cons_of_pos (h x (by simp))]
    exact ih (fun c hc => h c (by simp [hc]))

theorem dropWhile_append_split {p : Char → Bool} (a b : List Char) :
    (a ++ b).dropWhile p =
      if (a.dropWhile p).isEmpty then b.dropWhile p else a.dropWhile p ++ b := by
  induction a with
  | nil => simp
  | cons x xs ih =>
    by_cases hx : p x = true
    · simpa [List.dropWhile_cons_of_pos hx] using ih
    · rw [List.cons_append,
        show List.dropWhile p (x :: (xs ++ b)) = x :: (xs ++ b) from
          List.dropWhile_cons_of_neg (by simp [hx]),
        show List.dropWhile p (x :: xs) = x :: xs from
          List.dropWhile_cons_of_neg (by simp [hx])]
      simp

theorem pyStrip_eq_self {l : List Char} (h : ∀ c ∈ l, c.isWhitespace = false) :
    pyStrip l = l := by
  unfold pyStrip
  rw [dropWhile_eq_self_of_all_not h,
    dropWhile_eq_self_of_all_not (fun c hc => h c (List.mem_reverse.mp hc)),
    List.reverse_reverse]

theorem pyStrip_append_ws {l w : List Char} (hw : ∀ c ∈ w, c.isWhitespace = true) :
    pyStrip (l ++ w) = pyStrip l := by
  unfold pyStrip
  rw [dropWhile_append_split]
  by_cases he : (l.dropWhile Char.isWhitespace).isEmpty = true
  · rw [if_pos he, dropWhile_all hw]
    have h0 : l.dropWhile Char.isWhitespace = [] := by
      cases hd : l.dropWhile Char.isWhitespace with
      | nil => rfl
      | cons y ys => rw [hd] at he; exact Bool.noConfusion he
    rw [h0]
  · rw [if_neg he, List.reverse_append,
      dropWhile_append_all _ (fun c hc => hw c (List.mem_reverse.mp hc))]

theorem splitOnChar_no_sep {sep : Char} {l : List Char} (h : ∀ c ∈ l, c ≠ sep) :
    splitOnChar sep l = [l] := by
  induction l with
  | nil => rfl
  | cons x xs ih =>
    have hx : x ≠ sep := h x (by simp)
    simp [splitOnChar, hx, ih (fun c hc => h c (by simp [hc]))]

theorem splitOnChar_sandwich {sep : Char} {a b : List Char}
    (ha : ∀ c ∈ a, c ≠ sep) (hb : ∀ c ∈ b, c ≠ sep) :
    splitOnChar sep (a ++ sep :: b) = [a, b] := by
  induction a with
  | nil => simp [splitOnChar, splitOnChar_no_sep hb]
  | cons x xs ih =>
    have hx : x ≠ sep := ha x (by simp)
    simp [splitOnChar, hx, ih (fun c hc => ha c (by simp [hc]))]

theorem pyDigitsGo_all {l : List Char} (h : ∀ c ∈ l, c.isDigit = true) (acc : Nat) :
    pyDigitsGo acc l = some (l.foldl (fun a c => a * 10 + (c.toNat - 48)) acc) := by
  induction l generalizing acc with
  | nil => rfl
  | cons x xs ih =>
    have hx := h x (by simp)
    have hstep : pyDigitsGo acc (x :: xs) = pyDigitsGo (acc * 10 + (x.toNat - 48)) xs := by
      rw [pyDigitsGo.eq_def]
      simp only [hx, if_true]
    rw [hstep, ih (fun c hc => h c (by simp [hc])), List.foldl_cons]

theorem pyInt_digits {l : List Char} (h : isDigitsB l = true) :
    pyInt l = some ((digitsVal l : Nat) : Int) := by
  have h2 : ∀ c ∈ l, c.isDigit = true := by
    intro c hc
    have hall := (Bool.and_eq_true _ _).mp h
    exact List.all_eq_true.mp hall.2 c hc
  unfold pyInt
  rw [pyStrip_eq_self (fun c hc => digit_not_ws (h2 c hc))]
  cases l with
  | nil => exact absurd h (by decide)
  | cons x xs =>
    have hx := h2 x (by simp)
    have hm : x ≠ '-' := digit_ne hx (by decide)
    have hp : x ≠ '+' := digit_ne hx (by decide)
    have hstep : pyIntCore (x :: xs) = (pyDigits (x :: xs)).map (fun n => (n : Int)) := by
      simp only [pyIntCore, if_neg hm, if_neg hp]
    have hd : pyDigits (x :: xs) = pyDigitsGo (x.toNat - 48) xs := by
      simp only [pyDigits, if_pos hx]
    rw [hstep, hd, pyDigitsGo_all (fun c hc => h2 c (by simp [hc]))]
    simp [digitsVal]

/-- Parsing a rendered time string: a digit hour, a colon, digit minutes,
then any suffix whose part before the first parenthesis is whitespace,
yields exactly the two digit values. -/
theorem parse_time_render {d1 d2 suf : List Char}
    (h1 : isDigitsB d1 = true) (h2 : isDigitsB d2 = true)
    (hs : (suf.takeWhile (fun c => c != '(')).all Char.isWhitespace = true) :
    parse_time (String.mk (d1 ++ ':' :: (d2 ++ suf))) =
      some (((digitsVal d1 : Nat) : Int), ((digitsVal d2 : Nat) : Int)) := by
  have hd1 : ∀ c ∈ d1, c.isDigit = true :=
    fun c hc => List.all_eq_true.mp ((Bool.and_eq_true _ _).mp h1).2 c hc
  have hd2 : ∀ c ∈ d2, c.isDigit = true :=
    fun c hc => List.all_eq_true.mp ((Bool.and_eq_true _ _).mp h2).2 c hc
  have hw : ∀ c ∈ suf.takeWhile (fun c => c != '('), c.isWhitespace = true :=
    fun c hc => List.all_eq_true.mp hs c hc
  have hne : ∀ c : Char, c.isDigit = true → (c != '(') = true := by
    intro c hc
    exact bne_iff_ne.mpr (digit_ne hc (by decide))
  have hbase : stripAnnot (String.mk (d1 ++ ':' :: (d2 ++ suf))) = d1 ++ ':' :: d2 := by
    show pyStrip ((d1 ++ ':' :: (d2 ++ suf)).takeWhile (fun c => c != '(')) = d1 ++ ':' :: d2
    rw [takeWhile_append_all _ (fun c hc => hne c (hd1 c hc)),
      List.takeWhile_cons_of_pos (by decide),
      takeWhile_append_all _ (fun c hc => hne c (hd2 c hc))]
    have hassoc : d1 ++ ':' :: (d2 ++ suf.takeWhile (fun c => c != '(')) =
        (d1 ++ ':' :: d2) ++ suf.takeWhile (fun c => c != '(') := by
      simp
    rw [hassoc, pyStrip_append_ws hw]
    refine pyStrip_eq_self ?_
    intro c hc
    rcases List.mem_append.mp hc with hc1 | hc2
    · exact digit_not_ws (hd1 c hc1)
    · rcases List.mem_cons.mp hc2 with rfl | hc3
      · decide
      · exact digit_not_ws (hd2 c hc3)
  unfold parse_time
  rw [hbase,
    splitOnChar_sandwich (fun c hc => digit_ne (hd1 c hc) (by decide))
      (fun c hc => digit_ne (hd2 c hc) (by decide))]
  simp only [pyInt_digits h1, pyInt_digits h2]

theorem parse_time_isSome_iff (s : String) : (parse_time s).isSome = true ↔ specTwoParts s := by
  unfold parse_time specTwoParts
  cases hsp : splitOnChar ':' (stripAnnot s) with
  | nil => simp
  | cons x rest =>
    cases rest with
    | nil => simp
    | cons y rest2 =>
      cases rest2 with
      | nil =>
        cases hx : pyInt x with
        | none => simp [hx]
        | some a =>
          cases hy : pyInt y with
          | none => simp [hx, hy]
          | some b =>
            simp only [hx, hy, Option.isSome_some, true_iff]
            exact ⟨x, y, a, b, rfl, hx, hy⟩
      | cons z rest3 => simp

/-! Equation lemmas for the recursive definitions. -/

theorem sched_cons (dayStart now : Int) (prayer tstr : String)
    (rest : List (String × String)) :
    schedule_daily_prayers dayStart now ((prayer, tstr) :: rest) =
      match parse_time tstr with
      | none => ([], some PyError.valueError)
      | some (hh, mm) =>
        match mkDatetime dayStart hh mm with
        | none => ([], some PyError.valueError)
        | some dtPrayer =>
          let here :=
            if dtPrayer - 60 > now then
              if dtPrayer - 600 > now then
                [Event.mk EventKind.primaryAlert prayer (dtPrayer - 60),
                 Event.mk EventKind.reminder prayer (dtPrayer - 600)]
              else
                [Event.mk EventKind.primaryAlert prayer (dtPrayer - 60)]
            else []
          let r := schedule_daily_prayers dayStart now rest
          (here ++ r.1, r.2) := rfl

theorem inner_loop_nil (dtIsha : Int) (jobs : List Event) :
    inner_loop dtIsha jobs [] = InnerOut.mk [] jobs false := rfl

theorem inner_loop_cons (dtIsha : Int) (jobs : List Event) (now : Int) (rest : List Int) :
    inner_loop dtIsha jobs (now :: rest) =
      if now > dtIsha then InnerOut.mk [] jobs true
      else
        InnerOut.mk ((run_pending now jobs).1 ++ (inner_loop dtIsha (run_pending now jobs).2 rest).fired)
          (inner_loop dtIsha (run_pending now jobs).2 rest).jobs
          (inner_loop dtIsha (run_pending now jobs).2 rest).exited := rfl

theorem main_run_cons (st : LoopState) (env : CycleEnv) (rest : List CycleEnv) :
    main_run st (env :: rest) =
      (st, main_cycle st env) ::
        match main_cycle st env with
        | CycleResult.crash _ => []
        | CycleResult.retry st2 _ => main_run st2 rest
        | CycleResult.running _ _ _ _ => []
        | CycleResult.advanced st2 _ _ _ => main_run st2 rest := rfl

/-! Elimination lemmas. -/

theorem prayerInstant_elim {dayStart : Int} {t : String} {dt : Int}
    (h : prayerInstant dayStart t = some dt) :
    ∃ hh mm, parse_time t = some (hh, mm) ∧ mkDatetime dayStart hh mm = some dt := by
  unfold prayerInstant at h
  cases hp : parse_time t with
  | none => rw [hp] at h; exact absurd h (by simp)
  | some v =>
    obtain ⟨hh, mm⟩ := v
    rw [hp] at h
    exact ⟨hh, mm, rfl, h⟩

theorem instantLE_elim {dayStart : Int} {t : String} {bound : Int}
    (h : instantLE dayStart t bound = true) :
    ∃ dt, prayerInstant dayStart t = some dt ∧ dt ≤ bound := by
  unfold instantLE at h
  cases hp : prayerInstant dayStart t with
  | none => rw [hp] at h; exact absurd h (by simp)
  | some dt =>
    rw [hp] at h
    exact ⟨dt, rfl, of_decide_eq_true h⟩

theorem validEntry_elim {e : PrayerEntry} (h : validEntry e = true) :
    isDigitsB e.2.1 = true ∧ isDigitsB e.2.2 = true ∧
      digitsVal e.2.1 < 24 ∧ digitsVal e.2.2 < 60 := by
  unfold validEntry at h
  simp only [Bool.and_eq_true, decide_eq_true_eq] at h
  exact ⟨h.1.1.1, h.1.1.2, h.1.2, h.2⟩

theorem parse_time_renderTime {d1 d2 : List Char}
    (h1 : isDigitsB d1 = true) (h2 : isDigitsB d2 = true) :
    parse_time (renderTime d1 d2) =
      some (((digitsVal d1 : Nat) : Int), ((digitsVal d2 : Nat) : Int)) := by
  have h := @parse_time_render d1 d2 [] h1 h2 (by decide)
  rw [List.append_nil] at h
  exact h

/-! Scheduling lemmas used by the claims about `schedule_daily_prayers`. -/

theorem mkDatetime_entry (dayStart : Int) (e : PrayerEntry)
    (h24 : digitsVal e.2.1 < 24) (h60 : digitsVal e.2.2 < 60) :
    mkDatetime dayStart ((digitsVal e.2.1 : Nat) : Int) ((digitsVal e.2.2 : Nat) : Int) =
      some (entryInstant dayStart e) := by
  unfold mkDatetime entryInstant
  rw [if_pos (by omega)]

theorem sched_map_render (dayStart now : Int) (entries : List PrayerEntry)
    (hv : entries.all validEntry = true) :
    schedule_daily_prayers dayStart now (entries.map renderEntry) =
      (entries.flatMap (expectedEvents dayStart now), none) := by
  induction entries with
  | nil => rfl
  | cons e rest ih =>
    have hve := validEntry_elim (List.all_eq_true.mp hv e (by simp))
    have hrest : rest.all validEntry = true :=
      List.all_eq_true.mpr (fun x hx => List.all_eq_true.mp hv x (by simp [hx]))
    obtain ⟨p, d1, d2⟩ := e
    rw [List.map_cons, List.flatMap_cons]
    show schedule_daily_prayers dayStart now
      ((p, renderTime d1 d2) :: rest.map renderEntry) = _
    rw [sched_cons]
    simp only [parse_time_renderTime hve.1 hve.2.1,
      mkDatetime_entry dayStart (p, d1, d2) hve.2.2.1 hve.2.2.2, ih hrest]
    rfl

theorem expected_count (dayStart now : Int) (entries : List PrayerEntry)
    (hf : entries.all (fun e => decide (entryInstant dayStart e - 60 > now)) = true) :
    ((entries.flatMap (expectedEvents dayStart now)).filter
      (fun ev => ev.kind == EventKind.primaryAlert)).length = entries.length := by
  induction entries with
  | nil => rfl
  | cons e rest ih =>
    have he : entryInstant dayStart e - 60 > now :=
      of_decide_eq_true (List.all_eq_true.mp hf e (by simp))
    have hrest : rest.all (fun e => decide (entryInstant dayStart e - 60 > now)) = true :=
      List.all_eq_true.mpr (fun x hx => List.all_eq_true.mp hf x (by simp [hx]))
    have hone : ((expectedEvents dayStart now e).filter
        (fun ev => ev.kind == EventKind.primaryAlert)).length = 1 := by
      unfold expectedEvents
      rw [if_pos he]
      by_cases h6 : entryInstant dayStart e - 600 > now
      · rw [if_pos h6]; rfl
      · rw [if_neg h6]; rfl
    rw [List.flatMap_cons, List.filter_append, List.length_append, ih hrest, hone,
      List.length_cons, Nat.add_comm]

theorem sched_nil_of_past (dayStart now : Int) (pts : List (String × String))
    (h : ∀ pr ∈ pts, ∃ dt, prayerInstant dayStart pr.2 = some dt ∧ ¬ dt - 60 > now) :
    schedule_daily_prayers dayStart now pts = ([], none) := by
  induction pts with
  | nil => rfl
  | cons pr rest ih =>
    obtain ⟨p, t⟩ := pr
    obtain ⟨dt, hdt, hpast⟩ := h (p, t) (by simp)
    obtain ⟨hh, mm, hp, hmk⟩ := prayerInstant_elim hdt
    rw [sched_cons]
    simp only [hp, hmk, if_neg hpast, ih (fun x hx => h x (by simp [hx]))]
    rfl

/-! Lemmas about `run_day`, `main_cycle` and `main_run`. -/

theorem run_day_advanced_day {st : LoopState} {env : CycleEnv} {pt : List (String × String)}
    {st2 : LoopState} {evs fired : List Event} {dtIsha : Int}
    (h : run_day st env pt = CycleResult.advanced st2 evs fired dtIsha) :
    st2.current_day = st.current_day + 86400 := by
  unfold run_day at h
  repeat' split at h
  all_goals cases h
  all_goals rfl

theorem run_day_ne_retry {st : LoopState} {env : CycleEnv} {pt : List (String × String)}
    {st2 : LoopState} {b : Int}
    (h : run_day st env pt = CycleResult.retry st2 b) : False := by
  unfold run_day at h
  repeat' split at h
  all_goals cases h

theorem main_cycle_advanced_day {st : LoopState} {env : CycleEnv}
    {st2 : LoopState} {evs fired : List Event} {dtIsha : Int}
    (h : main_cycle st env = CycleResult.advanced st2 evs fired dtIsha) :
    st2.current_day = st.current_day + 86400 := by
  unfold main_cycle at h
  split at h
  · exact absurd h (by simp)
  · exact absurd h (by simp)
  · exact run_day_advanced_day h

theorem main_cycle_retry_state {st : LoopState} {env : CycleEnv}
    {st2 : LoopState} {b : Int}
    (h : main_cycle st env = CycleResult.retry st2 b) :
    st2 = LoopState.mk st.current_day [] ∧ b = 3600 := by
  unfold main_cycle at h
  split at h
  · exact absurd h (by simp)
  · cases h; exact ⟨rfl, rfl⟩
  · exact (run_day_ne_retry h).elim

theorem main_run_day_ge (envs : List CycleEnv) (st : LoopState) :
    ∀ q ∈ main_run st envs, st.current_day ≤ q.1.current_day := by
  induction envs generalizing st with
  | nil => intro q hq; exact absurd hq (by simp [main_run])
  | cons env rest ih =>
    intro q hq
    rw [main_run_cons] at hq
    rcases List.mem_cons.mp hq with rfl | hq2
    · exact le_refl _
    · cases hr : main_cycle st env with
      | crash e => rw [hr] at hq2; exact absurd hq2 (by simp)
      | retry st2 b =>
        rw [hr] at hq2
        have hst2 := (main_cycle_retry_state hr).1
        have := ih st2 q hq2
        rw [hst2] at this
        exact this
      | running st2 evs fired dtIsha => rw [hr] at hq2; exact absurd hq2 (by simp)
      | advanced st2 evs fired dtIsha =>
        rw [hr] at hq2
        have hday := main_cycle_advanced_day hr
        have := ih st2 q hq2
        omega

/-! Claim theorems. -/

/-- C5: for every well-formed input containing `H:MM` or `HH:MM` optionally
followed by trailing annotation text (the part before the `(` marker being
whitespace), parsing returns exactly that hour-minute pair regardless of the
annotation content; and parsing fails exactly when the annotation-stripped,
whitespace-trimmed text does not split into exactly two integer-parsable
parts, as it does for `20:30:99` and `abc`. -/
theorem c5_parse_time_contract :
    (∀ d1 d2 suf : List Char, isDigitsB d1 = true → isDigitsB d2 = true →
      (suf.takeWhile (fun c => c != '(')).all Char.isWhitespace = true →
      parse_time (String.mk (d1 ++ ':' :: (d2 ++ suf))) =
        some (((digitsVal d1 : Nat) : Int), ((digitsVal d2 : Nat) : Int)))
    ∧ (∀ s : String, (parse_time s).isSome = true ↔ specTwoParts s)
    ∧ parse_time ("20:30:99") = none
    ∧ parse_time ("abc") = none :=
  ⟨fun _ _ _ h1 h2 hs => parse_time_render h1 h2 hs,
   parse_time_isSome_iff, by decide, by decide⟩

/-- C5 witness: the two positive examples of the claim, obtained from the
theorem at concrete digit lists. -/
theorem c5_witness :
    parse_time ("20:30 (CEST)") = some (20, 30) ∧ parse_time ("5:07") = some (5, 7) := by
  constructor
  · exact c5_parse_time_contract.1 ['2', '0'] ['3', '0']
      [' ', '(', 'C', 'E', 'S', 'T', ')'] (by decide) (by decide) (by decide)
  · exact c5_parse_time_contract.1 ['5'] ['0', '7'] [] (by decide) (by decide) (by decide)

/-- C10: whenever the annotation-stripped text splits into exactly two
integer-parsable parts, `parse_time` returns those two integers unchanged with
no range validation — `99:99` yields `(99, 99)` — and the range check only
happens in the later `datetime` consumer (`mkDatetime` rejects hour 99). -/
theorem c10_no_range_validation :
    (∀ (s : String) (x y : List Char) (a b : Int),
      splitOnChar ':' (stripAnnot s) = [x, y] → pyInt x = some a → pyInt y = some b →
      parse_time s = some (a, b))
    ∧ parse_time ("99:99") = some (99, 99)
    ∧ mkDatetime 0 99 99 = none := by
  refine ⟨?_, by decide, by decide⟩
  intro s x y a b hsp hx hy
  unfold parse_time
  rw [hsp]
  simp only [hx, hy]

/-- C10 witness: the `99:99` instance obtained from the theorem. -/
theorem c10_witness : parse_time ("99:99") = some (99, 99) :=
  c10_no_range_validation.1 ("99:99") ['9', '9'] ['9', '9'] 99 99
    (by decide) (by decide) (by decide)

/-- C2: once device resolution succeeds and the volume snapshot is captured,
the trace of attempted device calls always ends with a volume-set call whose
argument is exactly the snapshot, and the playback attempt, the hold delay and
the alert-volume raise are all present, for every combination of failures in
the volume-raise and playback steps: no early return. -/
theorem c2_restore_snapshot :
    ∀ (vol : ℚ) (setVolFails playMediaFails playCmdFails restoreFails : Bool),
      (play_azan true true vol setVolFails playMediaFails playCmdFails restoreFails).getLast? =
          some (DevAction.setVolume vol)
      ∧ DevAction.setVolume AZAN_VOLUME ∈
          play_azan true true vol setVolFails playMediaFails playCmdFails restoreFails
      ∧ DevAction.playMedia AZAN_URL ("audio/mp3") ∈
          play_azan true true vol setVolFails playMediaFails playCmdFails restoreFails
      ∧ DevAction.sleepSecs 180 ∈
          play_azan true true vol setVolFails playMediaFails playCmdFails restoreFails := by
  intro vol f1 f2 f3 f4
  cases f2 <;>
    exact ⟨rfl, by simp [play_azan], by simp [play_azan], by simp [play_azan]⟩

/-- C7: the set of scheduled events after two identical calls of
`schedule_daily_prayers` (the jobs of both calls accumulated in the
scheduler) equals the set after one call. -/
theorem c7_idempotent (dayStart now : Int) (pts : List (String × String)) :
    ((schedule_daily_prayers dayStart now pts).1 ++
        (schedule_daily_prayers dayStart now pts).1).toFinset =
      (schedule_daily_prayers dayStart now pts).1.toFinset := by
  simp

/-- C8: a non-empty test time string parsing to a strictly future valid
instant yields exactly one extra primary-alert job at exactly that instant
(not shifted by one minute); a passed instant, the empty string, and a
malformed string each yield no test job. -/
theorem c8_test_time :
    (∀ (dayStart : Int) (t : String) (now hh mm dt : Int),
      t ≠ "" → parse_time t = some (hh, mm) → mkDatetime dayStart hh mm = some dt →
      dt > now →
      schedule_test_time dayStart t now =
        ([Event.mk EventKind.primaryAlert ("TEST") dt], none))
    ∧ (∀ (dayStart : Int) (t : String) (now hh mm dt : Int),
      t ≠ "" → parse_time t = some (hh, mm) → mkDatetime dayStart hh mm = some dt →
      ¬ dt > now →
      schedule_test_time dayStart t now = ([], none))
    ∧ (∀ (dayStart now : Int), schedule_test_time dayStart ("") now = ([], none))
    ∧ (∀ (dayStart : Int) (t : String) (now : Int),
      parse_time t = none → schedule_test_time dayStart t now = ([], none)) := by
  refine ⟨?_, ?_, fun dayStart now => rfl, ?_⟩
  · intro dayStart t now hh mm dt ht hp hmk hdt
    simp only [schedule_test_time, if_neg ht, hp, hmk, if_pos hdt]
  · intro dayStart t now hh mm dt ht hp hmk hdt
    simp only [schedule_test_time, if_neg ht, hp, hmk, if_neg hdt]
  · intro dayStart t now hp
    by_cases ht : t = ""
    · rw [ht]; rfl
    · simp only [schedule_test_time, if_neg ht, hp]

/-- C8 witness: a test time of `14:00` on day start 0 with now 0 schedules one
primary alert at instant 50400, via the theorem. -/
theorem c8_witness :
    schedule_test_time 0 ("14:00") 0 =
      ([Event.mk EventKind.primaryAlert ("TEST") 50400], none) :=
  c8_test_time.1 0 ("14:00") 0 14 0 50400 (by decide) (by decide) (by decide) (by decide)

/-- C9: every job the inner polling loop ever fires has its instant at most
the Isha instant — the loop tests `now > dt_isha` and breaks before running
pending jobs — so a job set strictly after Isha is never executed; and the
next cycle's behavior is independent of the pending jobs it inherits, because
`schedule.clear()` runs before anything else. -/
theorem c9_no_fire_after_isha :
    (∀ (dtIsha : Int) (jobs : List Event) (polls : List Int) (e : Event),
      e ∈ (inner_loop dtIsha jobs polls).fired → e.fire ≤ dtIsha)
    ∧ ∀ (st : LoopState) (env : CycleEnv),
        main_cycle st env = main_cycle (LoopState.mk st.current_day []) env := by
  constructor
  · intro dtIsha jobs polls
    induction polls generalizing jobs with
    | nil =>
      intro e he
      rw [inner_loop_nil] at he
      exact absurd he (List.not_mem_nil e)
    | cons now rest ih =>
      intro e he
      rw [inner_loop_cons] at he
      by_cases hn : now > dtIsha
      · rw [if_pos hn] at he
        exact absurd he (List.not_mem_nil e)
      · rw [if_neg hn] at he
        rcases List.mem_append.mp he with h1 | h2
        · have hd := List.of_mem_filter h1
          have hle : e.fire ≤ now := of_decide_eq_true hd
          exact le_trans hle (not_lt.mp hn)
        · exact ih _ e h2
  · intro st env
    cases st
    rfl

/-- C9 witness: a due job below the Isha bound does fire, and the theorem
bounds its instant by the Isha instant. -/
theorem c9_witness : (Event.mk EventKind.primaryAlert ("X") 500).fire ≤ 1000 :=
  c9_no_fire_after_isha.1 1000 [Event.mk EventKind.primaryAlert ("X") 500] [600]
    (Event.mk EventKind.primaryAlert ("X") 500) (by decide)

/-- C1 fails as stated: with build-time now 30 seconds after midnight, all
five prayer instants of this set are strictly in the future, yet only four
primary alerts are scheduled — Fajr at `00:01` has its computed fire instant
(one minute earlier) already passed, and the source tests the fire instant,
not the prayer instant. -/
theorem c1_counterexample :
    ([("Fajr", "00:01"), ("Dhuhr", "13:05"), ("Asr", "16:40"),
      ("Maghrib", "19:58"), ("Isha", "21:20")].all
        (fun pr => ((prayerInstant 0 pr.2).map (fun dt => decide (dt > 30))).getD false)
      = true)
    ∧ ¬ (((schedule_daily_prayers 0 30
          [("Fajr", "00:01"), ("Dhuhr", "13:05"), ("Asr", "16:40"),
           ("Maghrib", "19:58"), ("Isha", "21:20")]).1.filter
            (fun ev => ev.kind == EventKind.primaryAlert)).length = 5) := by
  exact ⟨by decide, by decide⟩

/-- C1 (amended): for every list of well-formed prayer entries,
`schedule_daily_prayers` produces exactly the per-prayer events predicted by
`expectedEvents` — a primary alert at exactly the prayer instant minus one
minute whenever that fire instant is still strictly future, plus a reminder at
the prayer instant minus ten minutes whenever that instant is also still
future — with no escaping exception; when every computed fire instant is still
future this gives exactly one primary alert per prayer; and a prayer whose
computed fire instant is not in the future contributes zero events. -/
theorem c1_amended (dayStart now : Int) (entries : List PrayerEntry)
    (hv : entries.all validEntry = true) :
    schedule_daily_prayers dayStart now (entries.map renderEntry) =
      (entries.flatMap (expectedEvents dayStart now), none)
    ∧ (entries.all (fun e => decide (entryInstant dayStart e - 60 > now)) = true →
        ((entries.flatMap (expectedEvents dayStart now)).filter
          (fun ev => ev.kind == EventKind.primaryAlert)).length = entries.length)
    ∧ (∀ e ∈ entries, ¬ entryInstant dayStart e - 60 > now →
        expectedEvents dayStart now e = []) := by
  refine ⟨sched_map_render dayStart now entries hv,
    expected_count dayStart now entries, ?_⟩
  intro e _ hno
  unfold expectedEvents
  rw [if_neg hno]

/-- C1 witness: the spec's end-to-end scenario — five prayers, now 04:00 —
yields, via the theorem, the five primary alerts at one minute early and the
five reminders at ten minutes early. -/
theorem c1_witness :
    schedule_daily_prayers 0 14400
      [("Fajr", "05:12"), ("Dhuhr", "13:05"), ("Asr", "16:40"),
       ("Maghrib", "19:58"), ("Isha", "21:20")] =
    ([Event.mk EventKind.primaryAlert ("Fajr") 18660,
      Event.mk EventKind.reminder ("Fajr") 18120,
      Event.mk EventKind.primaryAlert ("Dhuhr") 47040,
      Event.mk EventKind.reminder ("Dhuhr") 46500,
      Event.mk EventKind.primaryAlert ("Asr") 59940,
      Event.mk EventKind.reminder ("Asr") 59400,
      Event.mk EventKind.primaryAlert ("Maghrib") 71820,
      Event.mk EventKind.reminder ("Maghrib") 71280,
      Event.mk EventKind.primaryAlert ("Isha") 76740,
      Event.mk EventKind.reminder ("Isha") 76200], none) :=
  (c1_amended 0 14400
    [(("Fajr"), ['0', '5'], ['1', '2']),
     (("Dhuhr"), ['1', '3'], ['0', '5']),
     (("Asr"), ['1', '6'], ['4', '0']),
     (("Maghrib"), ['1', '9'], ['5', '8']),
     (("Isha"), ['2', '1'], ['2', '0'])] (by decide)).1

/-- Crash propagation through `run_day` when the daily scheduling pass raises. -/
theorem run_day_crash_sched {st : LoopState} {env : CycleEnv}
    {pt : List (String × String)} {e : PyError}
    (h : (schedule_daily_prayers st.current_day env.nowBuild pt).2 = some e) :
    run_day st env pt = CycleResult.crash e := by
  unfold run_day
  rw [h]

/-- C6 fails as stated: a malformed prayer time string is not recovered by
skipping — the `ValueError` escapes `schedule_daily_prayers` (no events at
all are scheduled here, the remaining prayers of the day included) and
terminates the process at the day-loop level. -/
theorem c6_counterexample :
    schedule_daily_prayers 0 0
      [("Fajr", "abc"), ("Dhuhr", "13:05"), ("Asr", "16:40"),
       ("Maghrib", "19:58"), ("Isha", "21:20")] = ([], some PyError.valueError)
    ∧ main_cycle (LoopState.mk 0 [])
        (CycleEnv.mk (FetchOutcome.response 200 (ApiBody.json true true
          [("Fajr", "abc"), ("Dhuhr", "13:05"), ("Asr", "16:40"),
           ("Maghrib", "19:58"), ("Isha", "21:20")])) 0 [] ("")) =
        CycleResult.crash PyError.valueError := ⟨rfl, rfl⟩

/-- C6 (amended): a malformed optional test time string is recovered by
skipping just the test event, with no exception; but a malformed prayer time
string raises an escaping `ValueError` from `schedule_daily_prayers` —
dropping that prayer's and all later prayers' events — and that exception
crashes the day loop, terminating the process. -/
theorem c6_amended :
    (∀ (dayStart : Int) (t : String) (now : Int), t ≠ "" → parse_time t = none →
      schedule_test_time dayStart t now = ([], none))
    ∧ (∀ (dayStart now : Int) (p t : String) (rest : List (String × String)),
        parse_time t = none →
        schedule_daily_prayers dayStart now ((p, t) :: rest) =
          ([], some PyError.valueError))
    ∧ (∀ (st : LoopState) (env : CycleEnv) (pt : List (String × String)),
        get_prayer_times_for_date env.fetch = Except.ok (some pt) →
        (schedule_daily_prayers st.current_day env.nowBuild pt).2 =
          some PyError.valueError →
        main_cycle st env = CycleResult.crash PyError.valueError) := by
  refine ⟨?_, ?_, ?_⟩
  · intro dayStart t now ht hp
    simp only [schedule_test_time, if_neg ht, hp]
  · intro dayStart now p t rest hp
    rw [sched_cons]
    simp only [hp]
  · intro st env pt hf hsched
    unfold main_cycle
    rw [hf]
    exact run_day_crash_sched hsched

/-- C6 witness: the malformed test time `abc` is skipped without an
exception, via the theorem. -/
theorem c6_witness : schedule_test_time 0 ("abc") 0 = ([], none) :=
  c6_amended.1 0 ("abc") 0 (by decide) (by decide)

/-- C3 fails as stated: a 200 response whose timings object is missing the
`Fajr` key raises an escaping `KeyError` instead of the hourly retry, and an
exception from `requests.get` itself (network error) likewise crashes the
process instead of being retried. -/
theorem c3_counterexample :
    get_prayer_times_for_date (FetchOutcome.response 200 (ApiBody.json true true
      [("Dhuhr", "13:05"), ("Asr", "16:40"), ("Maghrib", "19:58"), ("Isha", "21:20")])) =
      Except.error PyError.keyError
    ∧ main_cycle (LoopState.mk 0 [])
        (CycleEnv.mk (FetchOutcome.response 200 (ApiBody.json true true
          [("Dhuhr", "13:05"), ("Asr", "16:40"), ("Maghrib", "19:58"), ("Isha", "21:20")]))
          0 [] ("")) = CycleResult.crash PyError.keyError
    ∧ main_cycle (LoopState.mk 0 [])
        (CycleEnv.mk FetchOutcome.raiseNet 0 [] ("")) =
        CycleResult.crash PyError.requestsError := ⟨rfl, rfl, rfl⟩

/-- C3 (amended): a fetch failure that surfaces as a non-200 status, or as a
200 JSON body lacking the data/timings envelope, is logged and leads to the
fixed 3600-second backoff and a retry of the very same date with the pending
jobs cleared, and the following cycle indeed re-attempts the same date; but a
network-level exception or an invalid JSON body crashes the process. -/
theorem c3_amended :
    (∀ (st : LoopState) (status : Int) (body : ApiBody) (nb : Int)
        (polls : List Int) (tt : String),
      status ≠ 200 →
      main_cycle st (CycleEnv.mk (FetchOutcome.response status body) nb polls tt) =
        CycleResult.retry (LoopState.mk st.current_day []) 3600)
    ∧ (∀ (st : LoopState) (hd ht : Bool) (tms : List (String × String)) (nb : Int)
        (polls : List Int) (tt : String),
      (hd && ht) = false →
      main_cycle st (CycleEnv.mk (FetchOutcome.response 200 (ApiBody.json hd ht tms)) nb polls tt) =
        CycleResult.retry (LoopState.mk st.current_day []) 3600)
    ∧ (∀ (st : LoopState) (nb : Int) (polls : List Int) (tt : String),
      main_cycle st (CycleEnv.mk FetchOutcome.raiseNet nb polls tt) =
        CycleResult.crash PyError.requestsError)
    ∧ (∀ (st : LoopState) (nb : Int) (polls : List Int) (tt : String),
      main_cycle st (CycleEnv.mk (FetchOutcome.response 200 ApiBody.invalidJson) nb polls tt) =
        CycleResult.crash PyError.jsonDecodeError)
    ∧ (∀ (st : LoopState) (env : CycleEnv) (rest : List CycleEnv) (st2 : LoopState) (b : Int),
      main_cycle st env = CycleResult.retry st2 b →
      main_run st (env :: rest) = (st, CycleResult.retry st2 b) :: main_run st2 rest
        ∧ st2.current_day = st.current_day ∧ b = 3600) := by
  refine ⟨?_, ?_, fun st nb polls tt => rfl, fun st nb polls tt => rfl, ?_⟩
  · intro st status body nb polls tt h
    have hg : get_prayer_times_for_date (FetchOutcome.response status body) =
        Except.ok none := by
      simp only [get_prayer_times_for_date, if_neg h]
    unfold main_cycle
    rw [hg]
  · intro st hd ht tms nb polls tt h
    cases hd <;> cases ht
    · rfl
    · rfl
    · rfl
    · exact absurd h (by decide)
  · intro st env rest st2 b h
    have hs := main_cycle_retry_state h
    refine ⟨?_, ?_, hs.2⟩
    · rw [main_run_cons, h]
    · rw [hs.1]

/-- C3 witness: a plain HTTP 500 leads, via the theorem, to the retry branch
with the date unchanged and the one-hour backoff. -/
theorem c3_witness :
    main_cycle (LoopState.mk 0 [])
      (CycleEnv.mk (FetchOutcome.response 500 ApiBody.invalidJson) 0 [] ("")) =
      CycleResult.retry (LoopState.mk 0 []) 3600 :=
  c3_amended.1 (LoopState.mk 0 []) 500 ApiBody.invalidJson 0 [] ("") (by decide)

/-- C4: every cycle ending with the inner loop's Isha break advances the date
cursor by exactly one day; a process started after Isha — all prayer instants
at most the Isha instant, which build-time now already exceeds — schedules no
events, breaks the inner loop at its first poll, and advances to tomorrow
within that one cycle; and after a cycle that advanced, every later cycle of
the run works on a strictly larger date, so a completed date is never
re-fetched or re-scheduled. -/
theorem c4_day_rollover :
    (∀ (st : LoopState) (env : CycleEnv) (st2 : LoopState) (evs fired : List Event)
        (dtIsha : Int),
      main_cycle st env = CycleResult.advanced st2 evs fired dtIsha →
      st2.current_day = st.current_day + 86400)
    ∧ (∀ (st : LoopState) (env : CycleEnv) (pt : List (String × String)) (tIsha : String)
        (dtIsha p0 : Int) (restPolls : List Int),
      env.testTime = "" →
      get_prayer_times_for_date env.fetch = Except.ok (some pt) →
      pt.lookup ("Isha") = some tIsha →
      prayerInstant st.current_day tIsha = some dtIsha →
      pt.all (fun pr => instantLE st.current_day pr.2 dtIsha) = true →
      env.nowBuild > dtIsha →
      env.polls = p0 :: restPolls →
      p0 ≥ env.nowBuild →
      main_cycle st env =
        CycleResult.advanced (LoopState.mk (st.current_day + 86400) []) [] [] dtIsha)
    ∧ (∀ (st : LoopState) (envs : List CycleEnv) (pre post : List (LoopState × CycleResult))
        (st1 st2 : LoopState) (evs fired : List Event) (dtIsha : Int),
      main_run st envs = pre ++ (st1, CycleResult.advanced st2 evs fired dtIsha) :: post →
      ∀ q ∈ post, st1.current_day < q.1.current_day) := by
  refine ⟨fun st env st2 evs fired dtIsha h => main_cycle_advanced_day h, ?_, ?_⟩
  · intro st env pt tIsha dtIsha p0 restPolls h1 h2 h3 h4 h5 h6 h7 h8
    have hsched : schedule_daily_prayers st.current_day env.nowBuild pt = ([], none) := by
      apply sched_nil_of_past
      intro pr hpr
      obtain ⟨dt, hdt, hle⟩ := instantLE_elim (List.all_eq_true.mp h5 pr hpr)
      exact ⟨dt, hdt, by omega⟩
    have htest : schedule_test_time st.current_day env.testTime env.nowBuild = ([], none) := by
      rw [h1]
      rfl
    obtain ⟨ihh, imm, hip, himk⟩ := prayerInstant_elim h4
    unfold main_cycle
    rw [h2]
    unfold run_day dayJobs
    simp only [hsched, htest, h3, hip, himk, List.nil_append, List.append_nil, h7,
      inner_loop_cons]
    rw [if_pos (show p0 > dtIsha from by omega)]
    rfl
  · intro st envs
    induction envs generalizing st with
    | nil =>
      intro pre post st1 st2 evs fired dtIsha h q hq
      have h0 : (main_run st [] : List (LoopState × CycleResult)) = [] := rfl
      rw [h0] at h
      exact absurd h.symm (by simp)
    | cons env rest ih =>
      intro pre post st1 st2 evs fired dtIsha h q hq
      rw [main_run_cons] at h
      cases pre with
      | nil =>
        rw [List.nil_append] at h
        injection h with hpair htail
        have hst1 : st = st1 := congrArg Prod.fst hpair
        have hr : main_cycle st env = CycleResult.advanced st2 evs fired dtIsha :=
          congrArg Prod.snd hpair
        rw [hr] at htail
        rw [← htail] at hq
        have hge := main_run_day_ge rest st2 q hq
        have hday := main_cycle_advanced_day hr
        rw [← hst1]
        omega
      | cons pfst pre2 =>
        rw [List.cons_append] at h
        injection h with hpair htail
        cases hr : main_cycle st env with
        | crash e =>
          rw [hr] at htail
          exact absurd htail.symm (by simp)
        | retry st2b b =>
          rw [hr] at htail
          exact ih st2b pre2 post st1 st2 evs fired dtIsha htail q hq
        | running st2b evsb firedb dtIshab =>
          rw [hr] at htail
          exact absurd htail.symm (by simp)
        | advanced st2b evsb firedb dtIshab =>
          rw [hr] at htail
          exact ih st2b pre2 post st1 st2 evs fired dtIsha htail q hq

/-- C4 witness: starting at 80000 seconds (past the 21:20 Isha at 76800), the
cycle schedules nothing, fires nothing, and advances to the next midnight,
via the theorem. -/
theorem c4_witness :
    main_cycle (LoopState.mk 0 [])
      (CycleEnv.mk (FetchOutcome.response 200 (ApiBody.json true true
        [("Fajr", "05:12"), ("Dhuhr", "13:05"), ("Asr", "16:40"),
         ("Maghrib", "19:58"), ("Isha", "21:20")])) 80000 [80000] ("")) =
      CycleResult.advanced (LoopState.mk 86400 []) [] [] 76800 :=
  c4_day_rollover.2.1 (LoopState.mk 0 [])
    (CycleEnv.mk (FetchOutcome.response 200 (ApiBody.json true true
      [("Fajr", "05:12"), ("Dhuhr", "13:05"), ("Asr", "16:40"),
       ("Maghrib", "19:58"), ("Isha", "21:20")])) 80000 [80000] (""))
    [("Fajr", "05:12"), ("Dhuhr", "13:05"), ("Asr", "16:40"),
     ("Maghrib", "19:58"), ("Isha", "21:20")] ("21:20") 76800 80000 []
    rfl rfl rfl (by decide) (by decide) (by decide) rfl (by decide)

end AzanSched
